/-
  Verification of txstate-etc/sveltekit-utils (src/api.ts, src/unifiedauth.ts).

  Shallow embedding: the TypeScript functions are translated into pure Lean
  functions.  JavaScript runtime values that the code inspects (JSON bodies,
  JWT payloads) are modelled by the inductive type JsonVal; platform
  primitives that the repository does not define (JSON.parse, jose's
  decodeJwt, fetch) are passed in as parameters or as explicit outcome
  values, so every control-flow decision made by the repository's own code
  is present in the model.
-/
import Mathlib

namespace SvelteKitUtils

/-- A JavaScript/JSON value, as inspected by the code under verification. -/
inductive JsonVal where
  | str (s : String)
  | num (n : Int)
  | bool (b : Bool)
  | null
  | arr (xs : List JsonVal)
  | obj (fields : List (String × JsonVal))

/-- JavaScript truthiness of a value. -/
def jsTruthy : JsonVal → Bool
  | .str s => !s.data.isEmpty
  | .num n => n != 0
  | .bool b => b
  | .null => false
  | .arr _ => true
  | .obj _ => true

/-- Truthiness of a possibly-undefined value (none models undefined). -/
def jsTruthyOpt : Option JsonVal → Bool
  | none => false
  | some v => jsTruthy v

/-- Property access v.key: defined only on objects, undefined elsewhere. -/
def objLookup (j : JsonVal) (key : String) : Option JsonVal :=
  match j with
  | .obj fields => fields.lookup key
  | _ => none

/-- Index access v[0]: first array element, first character of a string,
    or the "0" property of an object; undefined elsewhere. -/
def jsIndex0 : JsonVal → Option JsonVal
  | .arr xs => xs.head?.map id
  | .obj fields => fields.lookup "0"
  | .str s => (s.data.head?).map (fun c => .str (String.mk [c]))
  | _ => none

/-- The .length property: arrays and strings have one; a plain object has
    one only if it carries a "length" field; undefined elsewhere. -/
def jsLength : JsonVal → Option JsonVal
  | .arr xs => some (.num xs.length)
  | .str s => some (.num s.length)
  | .obj fields => fields.lookup "length"
  | _ => none

/-- txstate-utils isBlank on an optional string: true when the value is
    null/undefined or contains only whitespace. -/
def isBlank : Option String → Bool
  | none => true
  | some s => s.data.all Char.isWhitespace

/-! ## unifiedauth.ts -/

/-- The token-bearing state touched by the impersonation functions:
    api.token plus the two sessionStorage keys the module reads/writes. -/
structure AuthState where
  apiToken : Option String
  sessionToken : Option String
  sessionOriginalToken : Option String

/-- Outcome of the fetch to unified-auth's /impersonate endpoint:
    either the promise rejects, or an HTTP response arrives carrying
    resp.ok, the error text (read when not ok) and the token field of the
    decoded JSON body (read when ok). -/
inductive ImpersonateFetch where
  | transportError (msg : String)
  | httpResp (ok : Bool) (errText : String) (token : String)

/-- unifiedAuth.impersonate.  Returns the state after the call together
    with Except.error when the function throws.  Note the sessionStorage
    write of originalToken happens before the fetch, unconditionally, so
    it persists on every path below the blank-token guard.  The netid
    argument only feeds the request body and is not modelled. -/
def impersonate (st : AuthState) (fetchResult : ImpersonateFetch) :
    AuthState × Except String Unit :=
  if isBlank st.apiToken then
    (st, .error "Must be authenticated to impersonate.")
  else
    let originalToken := st.apiToken.getD ""
    let st1 : AuthState := { st with sessionOriginalToken := some originalToken }
    match fetchResult with
    | .transportError msg => (st1, .error msg)
    | .httpResp ok errText token =>
      if !ok then (st1, .error ("Failed to impersonate: " ++ errText))
      else ({ st1 with apiToken := some token, sessionToken := some token }, .ok ())

/-- unifiedAuth.exitImpersonation. -/
def exitImpersonation (st : AuthState) : AuthState × Except String Unit :=
  match st.sessionOriginalToken with
  | none => (st, .error "No original token found. Not currently impersonating.")
  | some originalToken =>
    ({ apiToken := some originalToken
       sessionToken := some originalToken
       sessionOriginalToken := none }, .ok ())

/-- Return type of unifiedAuth.getImpersonationStatus.  impersonatedUser is
    payload.sub cast to string, which may be undefined (none) at runtime. -/
inductive ImpersonationStatus where
  | notImpersonating
  | impersonating (impersonatedUser : Option JsonVal) (impersonatedBy : JsonVal)

/-- unifiedAuth.getImpersonationStatus.  decodeJwt comes from the external
    jose library and is passed as a parameter: it either yields the decoded
    payload or fails (throws) on a malformed token.  The function is total:
    the decode failure branch is the try/catch in the source. -/
def getImpersonationStatus (decodeJwt : String → Except Unit JsonVal)
    (token : Option String) : ImpersonationStatus :=
  if isBlank token then .notImpersonating
  else
    match decodeJwt (token.getD "") with
    | .error _ => .notImpersonating
    | .ok payload =>
      match objLookup payload "act" with
      | none => .notImpersonating
      | some act =>
        if jsTruthy act then
          if jsTruthyOpt (objLookup act "sub") then
            .impersonating (objLookup payload "sub")
              ((objLookup act "sub").getD .null)
          else .notImpersonating
        else .notImpersonating

/-- Result of one run of a mayImpersonate cache fetcher: the boolean it
    resolves to, and the body of the network request it issued (none when
    it short-circuited without calling fetch). -/
structure CheckResult where
  result : Bool
  requestBody : Option JsonVal

/-- Outcome of the fetch to /mayImpersonate: the promise rejects, or an
    HTTP response arrives with resp.ok and the decoded JSON body (none
    models resp.json() throwing on an unparseable body). -/
inductive NetOutcome where
  | transportError
  | httpResp (ok : Bool) (body : Option JsonVal)

/-- The fetcher inside mayImpersonateAnyCache.  Sends body {} and resolves
    to !!authorized; every failure path resolves to false. -/
def mayImpersonateAnyFetcher (apiToken : Option String) (net : NetOutcome) :
    CheckResult :=
  if isBlank apiToken then ⟨false, none⟩
  else
    let body : JsonVal := .obj []
    match net with
    | .transportError => ⟨false, some body⟩
    | .httpResp ok respBody =>
      if !ok then ⟨false, some body⟩
      else
        match respBody with
        | none => ⟨false, some body⟩
        | some j => ⟨jsTruthyOpt (objLookup j "authorized"), some body⟩

/-- The fetcher inside mayImpersonateNetidCache.  Identical control flow,
    with { netid } as the request body. -/
def mayImpersonateNetidFetcher (apiToken : Option String) (netid : String)
    (net : NetOutcome) : CheckResult :=
  if isBlank apiToken then ⟨false, none⟩
  else
    let body : JsonVal := .obj [("netid", .str netid)]
    match net with
    | .transportError => ⟨false, some body⟩
    | .httpResp ok respBody =>
      if !ok then ⟨false, some body⟩
      else
        match respBody with
        | none => ⟨false, some body⟩
        | some j => ⟨jsTruthyOpt (objLookup j "authorized"), some body⟩

/-! ## api.ts: APIBase.request and friends -/

/-- An HTTP response as consumed by APIBase.request. -/
structure Resp where
  status : Nat
  statusText : String
  contentType : Option String
  bodyText : String

/-- Fetch's Response.ok: status in the range 200..299. -/
def Resp.ok (r : Resp) : Bool :=
  decide (200 ≤ r.status) && decide (r.status ≤ 299)

/-- Does the first list start with the second? -/
def charsStartWith : List Char → List Char → Bool
  | _, [] => true
  | [], _ :: _ => false
  | c :: cs, d :: ds => c == d && charsStartWith cs ds

/-- Substring occurrence over character lists. -/
def charsContain : List Char → List Char → Bool
  | [], needle => needle.isEmpty
  | c :: cs, needle => charsStartWith (c :: cs) needle || charsContain cs needle

/-- contentType.indexOf("application/json") !== -1. -/
def containsAppJson (s : String) : Bool :=
  charsContain s.data "application/json".data

/-- isJsonResponse: contentType && contentType.indexOf("application/json") !== -1. -/
def Resp.isJsonResponse (r : Resp) : Bool :=
  match r.contentType with
  | none => false
  | some s => !s.data.isEmpty && containsAppJson s

/-- The error branch's body value:
    (isJsonResponse ? rescue(resp.json()) : rescue(resp.text())) ?? resp.statusText.
    rescue yields undefined when the promise rejects; the nullish
    coalescing also replaces a JSON null body with statusText. -/
def requestErrorBody (parse : String → Option JsonVal) (r : Resp) : JsonVal :=
  let b : Option JsonVal :=
    if r.isJsonResponse then parse r.bodyText else some (.str r.bodyText)
  match b with
  | none => .str r.statusText
  | some .null => .str r.statusText
  | some v => v

/-- The message picked out of the error body: the body itself when it is a
    string, else body.message when truthy, else body[0]?.message when
    truthy, else the empty string. -/
def extractMessage (body : JsonVal) : JsonVal :=
  match body with
  | .str s => .str s
  | _ =>
    let m1 := objLookup body "message"
    if jsTruthyOpt m1 then m1.getD .null
    else
      let m2 := (jsIndex0 body).bind (fun b0 => objLookup b0 "message")
      if jsTruthyOpt m2 then m2.getD .null
      else .str ""

/-- How a single APIBase.request call ends. -/
inductive ReqResult where
  | redirect401
  | remoteRejection (status : Nat) (message : JsonVal)
  | okJson (j : JsonVal)
  | okText (t : String)
  | parseThrow

/-- The success path: return isJsonResponse ? await resp.json() : await resp.text().
    parseThrow models resp.json() rejecting on a malformed body. -/
def responseBody (parse : String → Option JsonVal) (r : Resp) : ReqResult :=
  if r.isJsonResponse then
    match parse r.bodyText with
    | some j => .okJson j
    | none => .parseThrow
  else .okText r.bodyText

/-- APIBase.request, after the fetch resolved to r.  parse models
    JSON.parse as performed by resp.json().  The headers sent are modelled
    separately by requestHeaders. -/
def requestModel (parse : String → Option JsonVal) (r : Resp)
    (inlineValidation : Bool) : ReqResult :=
  if !r.ok && !(decide (r.status = 422) && inlineValidation) then
    if r.status = 401 then .redirect401
    else .remoteRejection r.status (extractMessage (requestErrorBody parse r))
  else responseBody parse r

/-- post/put/patch/get/delete call request without inlineValidation. -/
def postModel (parse : String → Option JsonVal) (r : Resp) : ReqResult :=
  requestModel parse r false

/-- validatedPost/validatedPut/validatedPatch call request with
    inlineValidation: true. -/
def validatedPostModel (parse : String → Option JsonVal) (r : Resp) : ReqResult :=
  requestModel parse r true

/-! ## api.ts: APIBase.graphql -/

/-- Observable outcome of the post-transport part of APIBase.graphql:
    every value handed to toasts.add, and either the full errors value the
    thrown Error carries, or gqlresponse.data (undefined when absent). -/
structure GraphQLOutcome where
  toastMessages : List (Option JsonVal)
  result : Except JsonVal (Option JsonVal)

/-- The body of APIBase.graphql after request resolved to gqlresponse:
    if (gqlresponse.errors?.length) { toasts.add(errors[0].message); throw }
    else return gqlresponse.data. -/
def graphqlStep (gqlresponse : JsonVal) : GraphQLOutcome :=
  let errs := objLookup gqlresponse "errors"
  if jsTruthyOpt (errs.bind jsLength) then
    { toastMessages := [(errs.bind jsIndex0).bind (fun e => objLookup e "message")]
      result := .error (errs.getD .null) }
  else
    { toastMessages := [], result := .ok (objLookup gqlresponse "data") }

/-- APIBase.graphql composed with the transport: request failures
    propagate (Except.error), a successful transport feeds the decoded
    body (or the raw text, as a string value) to graphqlStep. -/
def graphqlModel (parse : String → Option JsonVal) (r : Resp) :
    Except ReqResult GraphQLOutcome :=
  match requestModel parse r false with
  | .okJson j => .ok (graphqlStep j)
  | .okText t => .ok (graphqlStep (.str t))
  | other => .error other

/-! ## api.ts: APIBase.stringifyQuery -/

/-- An entry value of a structured query mapping:
    undefined | string | number | (string|number)[]. -/
inductive StrNum where
  | str (s : String)
  | num (n : Int)

inductive QueryVal where
  | undef
  | scalar (v : StrNum)
  | arr (xs : List StrNum)

/-- The query argument: undefined, a raw string, or a structured mapping. -/
inductive QueryPayload where
  | strQ (s : String)
  | obj (entries : List (String × QueryVal))

/-- txstate-utils toArray: [] for null/undefined, the array itself for an
    array, a singleton otherwise. -/
def toArray : QueryVal → List StrNum
  | .undef => []
  | .scalar v => [v]
  | .arr xs => xs

/-- String(v) for a string-or-number value.  JavaScript number formatting
    coincides with Int.toString on integers. -/
def StrNum.toJs : StrNum → String
  | .str s => s
  | .num n => toString n

/-- The (key, value) pairs appended to the URLSearchParams, in order:
    for each entry, one pair per element of toArray(val). -/
def queryPairs : List (String × QueryVal) → List (String × String)
  | [] => []
  | (key, val) :: rest => (toArray val).map (fun v => (key, v.toJs)) ++ queryPairs rest

/-- Uppercase hex digit. -/
def hexDigit (n : Nat) : Char :=
  if n < 10 then Char.ofNat (48 + n) else Char.ofNat (55 + n)

/-- Percent-escape of one byte. -/
def percentByte (b : UInt8) : String :=
  "%" ++ String.mk [hexDigit (b.toNat / 16), hexDigit (b.toNat % 16)]

/-- application/x-www-form-urlencoded serialization of one character, as
    URLSearchParams.toString does: space becomes +, unreserved characters
    stay, everything else is percent-escaped by UTF-8 byte. -/
def formUrlEncodeChar (c : Char) : String :=
  if c = ' ' then "+"
  else if c.isAlphanum || c = '*' || c = '-' || c = '.' || c = '_' then
    String.mk [c]
  else
    String.join (((String.mk [c]).toUTF8.toList).map percentByte)

def formUrlEncode (s : String) : String :=
  String.join (s.data.map formUrlEncodeChar)

/-- URLSearchParams.toString over an ordered pair list. -/
def serializePairs (ps : List (String × String)) : String :=
  String.intercalate "&" (ps.map (fun p => formUrlEncode p.1 ++ "=" ++ formUrlEncode p.2))

/-- APIBase.stringifyQuery. -/
def stringifyQuery : Option QueryPayload → String
  | none => ""
  | some (.strQ s) => if s.startsWith "?" then s else "?" ++ s
  | some (.obj entries) => "?" ++ serializePairs (queryPairs entries)

/-! ## api.ts: request headers vs uploadWithProgress headers -/

/-- The headers APIBase.request always sends:
    Authorization: Bearer (token ?? empty), Accept, and Content-Type only
    when a body is present. -/
def requestHeaders (token : Option String) (hasBody : Bool) :
    List (String × String) :=
  [("Authorization", "Bearer " ++ token.getD ""), ("Accept", "application/json")]
    ++ (if hasBody then [("Content-Type", "application/json")] else [])

/-- Truthiness of this.token (undefined and the empty string are falsy). -/
def tokenTruthy : Option String → Bool
  | none => false
  | some s => !s.data.isEmpty

/-- The headers APIBase.uploadWithProgress sets on its XMLHttpRequest:
    Authorization only when this.token is truthy, then Accept. -/
def uploadHeaders (token : Option String) : List (String × String) :=
  (if tokenTruthy token then [("Authorization", "Bearer " ++ token.getD "")] else [])
    ++ [("Accept", "application/json")]

/-! ## api.ts: uploadWithProgress load handler -/

/-- How the promise inside uploadWithProgress settles once the request
    fires its load event. -/
inductive UploadResult where
  | rejectedHttp (responseText : String)
  | rejectedParse
  | resolved (j : JsonVal)

/-- The load listener: reject on status >= 400, otherwise resolve with
    JSON.parse(responseText), rejecting with the parse error when the text
    is not valid JSON.  parse models JSON.parse. -/
def uploadLoadHandler (parse : String → Option JsonVal) (status : Nat)
    (responseText : String) : UploadResult :=
  if 400 ≤ status then .rejectedHttp responseText
  else
    match parse responseText with
    | some j => .resolved j
    | none => .rejectedParse

/-! ## api.ts: replaceFiles -/

/-- The identity of a File object: the fields replaceFiles reads. -/
structure FileData where
  name : String
  mime : String
  size : Nat
deriving Repr, DecidableEq

/-- A value inside the variables tree handed to graphqlWithUploads:
    a File, an APIUploadInfo object (as created by replaceFiles), a nested
    plain object or array (children in key order), or any primitive. -/
inductive Vars where
  | file (f : FileData)
  | info (multipartIndex : Nat) (f : FileData)
  | node (children : List (String × Vars))
  | prim (v : JsonVal)

/-- replaceFiles on the entries of one object/array, threading the files
    accumulator.  Returns the resulting entries, the files array after the
    call, and whether a fresh container was allocated for this level
    (newVariables !== undefined in the source); when that flag is false the
    source returns the very same reference it was given.  An APIUploadInfo
    in the input is an Object whose fields are all primitives, so recursing
    into it changes nothing; it is handled like a primitive below. -/
def replaceFilesList : List (String × Vars) → List FileData →
    List (String × Vars) × List FileData × Bool
  | [], files => ([], files, false)
  | (key, val) :: rest, files =>
    match val with
    | .file f =>
      let files1 := files ++ [f]
      let r := replaceFilesList rest files1
      ((key, .info (files1.length - 1) f) :: r.1, r.2.1, true)
    | .node children =>
      let c := replaceFilesList children files
      let newVal : Vars := if c.2.2 then .node c.1 else val
      let r := replaceFilesList rest c.2.1
      ((key, newVal) :: r.1, r.2.1, c.2.2 || r.2.2)
    | _ =>
      let r := replaceFilesList rest files
      ((key, val) :: r.1, r.2.1, r.2.2)

/-- Does the tree under these entries contain a File anywhere? -/
def hasFileL : List (String × Vars) → Bool
  | [] => false
  | (_, .file _) :: _ => true
  | (_, .node children) :: rest => hasFileL children || hasFileL rest
  | _ :: rest => hasFileL rest

/-- The Files of the tree, in traversal order (key order, depth before
    later siblings) — the order replaceFiles pushes them. -/
def collectFilesL : List (String × Vars) → List FileData
  | [] => []
  | (_, .file f) :: rest => f :: collectFilesL rest
  | (_, .node children) :: rest => collectFilesL children ++ collectFilesL rest
  | _ :: rest => collectFilesL rest

/-- The multipartIndex values of all APIUploadInfo placeholders in the
    tree, in traversal order. -/
def collectIdxL : List (String × Vars) → List Nat
  | [] => []
  | (_, .info i _) :: rest => i :: collectIdxL rest
  | (_, .node children) :: rest => collectIdxL children ++ collectIdxL rest
  | _ :: rest => collectIdxL rest

/-- True when the input tree contains no pre-existing APIUploadInfo. -/
def noInfoL : List (String × Vars) → Bool
  | [] => true
  | (_, .info _ _) :: _ => false
  | (_, .node children) :: rest => noInfoL children && noInfoL rest
  | _ :: rest => noInfoL rest

/-! ## api.ts: recordInteraction / analytics batching -/

/-- The fields of an InteractionEvent the model tracks. -/
structure Event where
  eventType : String
  screen : String
  action : String
deriving Repr, DecidableEq

/-- The setTimeout delay used by recordInteraction. -/
def flushDelayMs : Nat := 2000

/-- The analytics world: the queue, the due-times of pending setTimeout
    callbacks (appended in scheduling order, hence nondecreasing since
    time only moves forward), and the bodies of the POST /analytics calls
    issued so far. -/
structure BatcherWorld where
  queue : List Event
  timers : List Nat
  posts : List (List Event)
deriving Repr, DecidableEq

def initWorld : BatcherWorld := ⟨[], [], []⟩

/-- APIBase.recordInteraction at wall-clock time now: push the event and
    schedule a flush callback; nothing is cancelled. -/
def recordInteraction (w : BatcherWorld) (now : Nat) (e : Event) : BatcherWorld :=
  { w with queue := w.queue ++ [e], timers := w.timers ++ [now + flushDelayMs] }

/-- The setTimeout callback: drain the queue and POST it only when
    non-empty.  The fired timer (the earliest pending one, i.e. the head)
    is removed. -/
def flushCallback (w : BatcherWorld) : BatcherWorld :=
  let events := w.queue
  { queue := []
    timers := w.timers.tail
    posts := if events.isEmpty then w.posts else w.posts ++ [events] }

/-- Discrete-event execution: at each step either the next pending
    recordInteraction call (time-ordered input list) or the earliest due
    timer runs, whichever comes first; a timer due at the same instant as
    a call runs first, matching the event loop.  Fuel bounds the number of
    steps; any fuel of at least recs.length * 2 + timers.length runs the
    world to quiescence. -/
def runWorld : Nat → List (Nat × Event) → BatcherWorld → BatcherWorld
  | 0, _, w => w
  | n + 1, [], w =>
    match w.timers with
    | [] => w
    | _ :: _ => runWorld n [] (flushCallback w)
  | n + 1, (t, e) :: rest, w =>
    match w.timers with
    | [] => runWorld n rest (recordInteraction w t e)
    | due :: _ =>
      if t < due then runWorld n rest (recordInteraction w t e)
      else runWorld n ((t, e) :: rest) (flushCallback w)

/-! ## Theorems -/

/-- Claim C1: the claim says a second impersonate() call must leave the
    already-set originalToken unchanged.  The code evaluates against it:
    starting from a session already impersonating (originalToken holds the
    true principal's token trueTok, currentToken holds the delegated token
    impTokA), a successful second impersonate() returning impTokB stores
    the delegated token impTokA into originalToken, which no longer equals
    trueTok; originalToken no longer traces back to the true principal. -/
theorem impersonate_second_call_overwrites_originalToken :
    (impersonate ⟨some "impTokA", some "impTokA", some "trueTok"⟩
        (.httpResp true "" "impTokB")).1
      = ⟨some "impTokB", some "impTokB", some "impTokA"⟩
    ∧ (some "impTokA" : Option String) ≠ some "trueTok" := by
  exact ⟨rfl, by decide⟩

/-- Claim C2: getImpersonationStatus returns notImpersonating on a
    decodable token whose payload has no act claim; returns
    impersonating with impersonatedUser "user1" and impersonatedBy
    "admin1" on a token with sub = "user1" and act.sub = "admin1"; and
    returns notImpersonating when decoding fails (the function is total,
    so it never throws). -/
theorem getImpersonationStatus_spec
    (decodeJwt : String → Except Unit JsonVal) (token : Option String) :
    (∀ payload, decodeJwt (token.getD "") = .ok payload →
      objLookup payload "act" = none →
      getImpersonationStatus decodeJwt token = .notImpersonating)
    ∧ (isBlank token = false →
      decodeJwt (token.getD "") =
        .ok (.obj [("sub", .str "user1"), ("act", .obj [("sub", .str "admin1")])]) →
      getImpersonationStatus decodeJwt token =
        .impersonating (some (.str "user1")) (.str "admin1"))
    ∧ (decodeJwt (token.getD "") = .error () →
      getImpersonationStatus decodeJwt token = .notImpersonating) := by
  refine ⟨?_, ?_, ?_⟩
  · intro payload hdec hact
    by_cases hb : isBlank token
    · simp [getImpersonationStatus, hb]
    · simp [getImpersonationStatus, hb, hdec, hact]
  · intro hb hdec
    simp only [getImpersonationStatus, hb, Bool.false_eq_true, if_false, hdec]
    rfl
  · intro hdec
    by_cases hb : isBlank token
    · simp [getImpersonationStatus, hb]
    · simp [getImpersonationStatus, hb, hdec]

/-- A sample external decodeJwt used to instantiate the claim-C2 theorem:
    one well-formed impersonation token, one well-formed ordinary token,
    everything else malformed. -/
def decodeJwtSample : String → Except Unit JsonVal := fun s =>
  if s = "good" then
    .ok (.obj [("sub", .str "user1"), ("act", .obj [("sub", .str "admin1")])])
  else if s = "noact" then .ok (.obj [("sub", .str "user1")])
  else .error ()

/-- Claim C2 witness: the three cases evaluated on concrete tokens. -/
theorem getImpersonationStatus_spec_witness :
    getImpersonationStatus decodeJwtSample (some "noact") = .notImpersonating
    ∧ getImpersonationStatus decodeJwtSample (some "good") =
        .impersonating (some (.str "user1")) (.str "admin1")
    ∧ getImpersonationStatus decodeJwtSample (some "bad") = .notImpersonating :=
  ⟨(getImpersonationStatus_spec decodeJwtSample (some "noact")).1
      (.obj [("sub", .str "user1")]) (by rfl) (by rfl),
   (getImpersonationStatus_spec decodeJwtSample (some "good")).2.1 (by rfl) (by rfl),
   (getImpersonationStatus_spec decodeJwtSample (some "bad")).2.2 (by rfl)⟩

/-- Claim C3: with a blank token both authorization checks resolve to
    false without issuing any network request; with a token present, a
    transport failure or a non-success HTTP status also resolves them to
    false.  Both fetchers are total functions, so the checks never throw. -/
theorem mayImpersonate_fail_closed (token : Option String) (netid : String)
    (net : NetOutcome) :
    (isBlank token = true →
      mayImpersonateAnyFetcher token net = ⟨false, none⟩
      ∧ mayImpersonateNetidFetcher token netid net = ⟨false, none⟩)
    ∧ (net = .transportError →
      (mayImpersonateAnyFetcher token net).result = false
      ∧ (mayImpersonateNetidFetcher token netid net).result = false)
    ∧ (∀ body, net = .httpResp false body →
      (mayImpersonateAnyFetcher token net).result = false
      ∧ (mayImpersonateNetidFetcher token netid net).result = false) := by
  refine ⟨?_, ?_, ?_⟩
  · intro hb
    simp [mayImpersonateAnyFetcher, mayImpersonateNetidFetcher, hb]
  · intro hnet
    subst hnet
    by_cases hb : isBlank token <;>
      simp [mayImpersonateAnyFetcher, mayImpersonateNetidFetcher, hb]
  · intro body hnet
    subst hnet
    by_cases hb : isBlank token <;>
      cases body <;>
      simp [mayImpersonateAnyFetcher, mayImpersonateNetidFetcher, hb]

/-- Claim C3 witness: the fail-closed cases evaluated concretely. -/
theorem mayImpersonate_fail_closed_witness :
    mayImpersonateAnyFetcher none .transportError = ⟨false, none⟩
    ∧ (mayImpersonateNetidFetcher (some "tok") "u1" .transportError).result = false
    ∧ (mayImpersonateAnyFetcher (some "tok") (.httpResp false none)).result = false :=
  ⟨((mayImpersonate_fail_closed none "u1" .transportError).1 (by rfl)).1,
   ((mayImpersonate_fail_closed (some "tok") "u1" .transportError).2.1 rfl).2,
   ((mayImpersonate_fail_closed (some "tok") "u1" (.httpResp false none)).2.2
      none rfl).1⟩

/-- Claim C4: a response with status 422 makes request fail with a
    RemoteRejectionError (the thrown error(status, message)) when
    inlineValidation was not requested, and the validatedPost/Put/Patch
    variants (inlineValidation: true) instead hand the same response body
    to the caller along the normal success path. -/
theorem request_422_inlineValidation (parse : String → Option JsonVal)
    (r : Resp) (h : r.status = 422) :
    postModel parse r
      = .remoteRejection 422 (extractMessage (requestErrorBody parse r))
    ∧ validatedPostModel parse r = responseBody parse r := by
  have hok : r.ok = false := by simp [Resp.ok, h]
  constructor
  · simp [postModel, requestModel, hok, h]
  · simp [validatedPostModel, requestModel, hok, h]

/-- JSON.parse sample for the claim-C4 witness. -/
def parseSample : String → Option JsonVal := fun s =>
  if s = "{}" then some (.obj []) else none

/-- A 422 JSON response. -/
def respSample422 : Resp := ⟨422, "Unprocessable Entity", some "application/json", "{}"⟩

/-- Claim C4 witness: on a concrete 422 response, post fails with the
    remote rejection while validatedPost returns the decoded body. -/
theorem request_422_inlineValidation_witness :
    postModel parseSample respSample422 = .remoteRejection 422 (.str "")
    ∧ validatedPostModel parseSample respSample422 = .okJson (.obj []) := by
  have h := request_422_inlineValidation parseSample respSample422 (by rfl)
  exact ⟨h.1.trans (by rfl), h.2.trans (by rfl)⟩

/-- Claim C5: when the transport succeeds (request returns a decoded JSON
    body) but that body carries a non-empty errors array, graphql hands
    the first error's message to toasts.add and fails with an error
    carrying the full errors list; the result is the error, never the
    data field. -/
theorem graphql_errors_fail (parse : String → Option JsonVal) (r : Resp)
    (gql hd : JsonVal) (tl : List JsonVal)
    (htrans : requestModel parse r false = .okJson gql)
    (herr : objLookup gql "errors" = some (.arr (hd :: tl))) :
    graphqlModel parse r = .ok (graphqlStep gql)
    ∧ (graphqlStep gql).toastMessages = [objLookup hd "message"]
    ∧ (graphqlStep gql).result = .error (.arr (hd :: tl)) := by
  have hstep : graphqlStep gql =
      { toastMessages := [objLookup hd "message"]
        result := .error (.arr (hd :: tl)) } := by
    simp [graphqlStep, herr, jsLength, jsTruthyOpt, jsTruthy, jsIndex0]
    omega
  refine ⟨?_, by rw [hstep], by rw [hstep]⟩
  simp [graphqlModel, htrans]

/-- The decoded GraphQL body for the claim-C5 witness. -/
def gqlSample : JsonVal :=
  .obj [("errors", .arr [.obj [("message", .str "boom")]]), ("data", .null)]

/-- JSON.parse sample for the claim-C5 witness. -/
def parseGqlSample : String → Option JsonVal := fun s =>
  if s = "gqlbody" then some gqlSample else none

/-- A successful JSON transport response for the claim-C5 witness. -/
def respSampleGql : Resp := ⟨200, "OK", some "application/json", "gqlbody"⟩

/-- Claim C5 witness: concrete errors array of one element. -/
theorem graphql_errors_fail_witness :
    graphqlModel parseGqlSample respSampleGql
      = .ok { toastMessages := [some (.str "boom")]
              result := .error (.arr [.obj [("message", .str "boom")]]) }
    ∧ (graphqlStep gqlSample).toastMessages = [some (.str "boom")]
    ∧ (graphqlStep gqlSample).result
      = .error (.arr [.obj [("message", .str "boom")]]) := by
  have h := graphql_errors_fail parseGqlSample respSampleGql gqlSample
    (.obj [("message", .str "boom")]) [] (by rfl) (by rfl)
  exact ⟨h.1.trans (by rfl), h.2.1.trans (by rfl), h.2.2⟩

/-- Claim C8: in a structured query mapping, an array-valued key
    contributes one (key, element) pair per array element, in element
    order and in the entry's position; a scalar entry is coerced to its
    string form as a single pair.  stringifyQuery serializes exactly that
    pair list after a question mark. -/
theorem stringifyQuery_array_pairs (q1 q2 : List (String × QueryVal))
    (key : String) (xs : List StrNum) :
    queryPairs (q1 ++ (key, .arr xs) :: q2)
      = queryPairs q1 ++ xs.map (fun v => (key, v.toJs)) ++ queryPairs q2
    ∧ (∀ k v, queryPairs [(k, .scalar v)] = [(k, v.toJs)])
    ∧ stringifyQuery (some (.obj (q1 ++ (key, .arr xs) :: q2)))
      = "?" ++ serializePairs
          (queryPairs q1 ++ xs.map (fun v => (key, v.toJs)) ++ queryPairs q2) := by
  have hmain : queryPairs (q1 ++ (key, .arr xs) :: q2)
      = queryPairs q1 ++ xs.map (fun v => (key, v.toJs)) ++ queryPairs q2 := by
    induction q1 with
    | nil => simp [queryPairs, toArray]
    | cons a q ih =>
      obtain ⟨k0, v0⟩ := a
      simp [queryPairs, ih, List.append_assoc]
  refine ⟨hmain, ?_, ?_⟩
  · intro k v
    simp [queryPairs, toArray]
  · simp [stringifyQuery, hmain]

/-- Claim C9: with no token set, uploadWithProgress sends no Authorization
    header at all, while request sends an Authorization header whose value
    is the string Bearer followed by a space and an empty credential. -/
theorem uploadHeaders_no_token_vs_requestHeaders :
    (uploadHeaders none).lookup "Authorization" = none
    ∧ (∀ hasBody, (requestHeaders none hasBody).lookup "Authorization"
        = some "Bearer ") := by
  refine ⟨by rfl, ?_⟩
  intro hasBody
  cases hasBody <;> rfl

/-- Claim C10: an uploadWithProgress load event with status below 400 whose
    response text is not valid JSON settles the promise by rejecting with
    the parse error, while request returns a non-JSON response body to the
    caller as raw text. -/
theorem upload_rejects_bad_json_request_returns_text
    (parse : String → Option JsonVal) (status : Nat) (text : String) (r : Resp)
    (hs : status < 400) (hp : parse text = none)
    (hok : r.ok = true) (hj : r.isJsonResponse = false) :
    uploadLoadHandler parse status text = .rejectedParse
    ∧ requestModel parse r false = .okText r.bodyText := by
  constructor
  · simp [uploadLoadHandler, Nat.not_le.mpr hs, hp]
  · simp [requestModel, hok, responseBody, hj]

/-- JSON.parse sample for the claim-C10 witness: nothing parses. -/
def parseNoneSample : String → Option JsonVal := fun _ => none

/-- A successful plain-text response for the claim-C10 witness. -/
def respSamplePlain : Resp := ⟨200, "OK", some "text/plain", "hello"⟩

/-- Claim C10 witness: concrete invalid-JSON upload and plain-text request. -/
theorem upload_rejects_bad_json_witness :
    uploadLoadHandler parseNoneSample 200 "not json" = .rejectedParse
    ∧ requestModel parseNoneSample respSamplePlain false = .okText "hello" := by
  have h := upload_rejects_bad_json_request_returns_text parseNoneSample 200
    "not json" respSamplePlain (by decide) (by rfl) (by rfl) (by rfl)
  exact ⟨h.1, h.2.trans (by rfl)⟩

/-- Technical lemma: a tree with no pre-existing APIUploadInfo carries no
    multipartIndex values. -/
theorem collectIdxL_eq_nil_of_noInfo (l : List (String × Vars)) (h : noInfoL l = true) :
    collectIdxL l = [] := by
  induction l using noInfoL.induct <;> simp_all [noInfoL, collectIdxL]

/-- Technical lemma: a tree with no File descendant contributes no files. -/
theorem collectFilesL_eq_nil_of_no_file (l : List (String × Vars)) (h : hasFileL l = false) :
    collectFilesL l = [] := by
  induction l using hasFileL.induct <;> simp_all [hasFileL, collectFilesL]

/-- The general behaviour of replaceFiles on the entries of one container,
    for an arbitrary incoming files accumulator: the files array grows by
    exactly the tree's Files in traversal order; a fresh container is
    allocated exactly when some descendant is a File; the multipartIndex
    values written into the output are consecutive starting at the
    incoming array's length; and a tree without Files is returned as the
    very reference it was given. -/
theorem replaceFilesList_complete (l : List (String × Vars)) (files : List FileData)
    (h : noInfoL l = true) :
    (replaceFilesList l files).2.1 = files ++ collectFilesL l
    ∧ (replaceFilesList l files).2.2 = hasFileL l
    ∧ collectIdxL (replaceFilesList l files).1
        = List.range' files.length (collectFilesL l).length
    ∧ (hasFileL l = false → (replaceFilesList l files).1 = l) := by
  induction l, files using replaceFilesList.induct with
  | case1 files =>
    simp [replaceFilesList, collectFilesL, hasFileL, collectIdxL]
  | case2 key rest files f files1 ih =>
    have hrest : noInfoL rest = true := by simpa [noInfoL] using h
    have ih' := ih hrest
    have ih1 : (replaceFilesList rest (files ++ [f])).2.1
        = (files ++ [f]) ++ collectFilesL rest := ih'.1
    have ih3 : collectIdxL (replaceFilesList rest (files ++ [f])).1
        = List.range' (files ++ [f]).length (collectFilesL rest).length := ih'.2.2.1
    refine ⟨?_, ?_, ?_, ?_⟩
    · simp only [replaceFilesList, collectFilesL]
      rw [ih1]
      simp
    · simp [replaceFilesList, hasFileL]
    · simp only [replaceFilesList, collectIdxL, collectFilesL]
      rw [ih3]
      simp [List.range'_succ, List.length_append]
    · intro hf
      simp [hasFileL] at hf
  | case3 key rest files children c ihc ihr =>
    have hpair : noInfoL children = true ∧ noInfoL rest = true := by
      simpa [noInfoL, Bool.and_eq_true] using h
    obtain ⟨c1, c2, c3, c4⟩ := ihc hpair.1
    have ihr' := ihr hpair.2
    have R1 : (replaceFilesList rest (replaceFilesList children files).2.1).2.1
        = (replaceFilesList children files).2.1 ++ collectFilesL rest := ihr'.1
    have R2 : (replaceFilesList rest (replaceFilesList children files).2.1).2.2
        = hasFileL rest := ihr'.2.1
    have R3 : collectIdxL (replaceFilesList rest (replaceFilesList children files).2.1).1
        = List.range' (replaceFilesList children files).2.1.length
            (collectFilesL rest).length := ihr'.2.2.1
    have R4 : hasFileL rest = false →
        (replaceFilesList rest (replaceFilesList children files).2.1).1 = rest :=
      ihr'.2.2.2
    rw [c1] at R1 R2 R3 R4
    by_cases hch : hasFileL children = true
    · have hcc : (replaceFilesList children files).2.2 = true := by rw [c2]; exact hch
      refine ⟨?_, ?_, ?_, ?_⟩
      · simp only [replaceFilesList]
        rw [c1, R1]
        simp [collectFilesL, List.append_assoc]
      · simp only [replaceFilesList]
        rw [c1]
        simp [hcc, R2, c2, hasFileL, hch]
      · simp only [replaceFilesList, hcc, if_true, collectIdxL]
        rw [c1, c3, R3]
        simp [collectFilesL, List.length_append, List.range'_append_1]
        omega
      · intro hf
        simp [hasFileL, hch] at hf
    · have hch' : hasFileL children = false := by simpa using hch
      have hcc : (replaceFilesList children files).2.2 = false := by rw [c2]; exact hch'
      have hcf : collectFilesL children = [] := collectFilesL_eq_nil_of_no_file children hch'
      have hidx : collectIdxL children = [] := collectIdxL_eq_nil_of_noInfo children hpair.1
      simp only [hcf, List.append_nil] at R1 R2 R3 R4
      refine ⟨?_, ?_, ?_, ?_⟩
      · simp only [replaceFilesList]
        rw [c1, hcf, List.append_nil, R1]
        simp [collectFilesL, hcf]
      · simp only [replaceFilesList]
        rw [c1, hcf, List.append_nil]
        simp [hcc, R2, hasFileL, hch']
      · simp only [replaceFilesList, hcc, Bool.false_eq_true, if_false, collectIdxL]
        rw [c1, hcf, List.append_nil, R3, hidx]
        simp [collectFilesL, hcf]
      · intro hf
        have hfr : hasFileL rest = false := by
          simpa [hasFileL, hch'] using hf
        simp only [replaceFilesList, hcc, Bool.false_eq_true, if_false]
        rw [c1, hcf, List.append_nil, R4 hfr]
  | case4 key val rest files hnf hnn ih =>
    cases val with
    | file f => exact (hnf f rfl).elim
    | node children => exact (hnn children rfl).elim
    | info i f => simp [noInfoL] at h
    | prim v =>
      have hrest : noInfoL rest = true := by simpa [noInfoL] using h
      obtain ⟨ih1, ih2, ih3, ih4⟩ := ih hrest
      refine ⟨?_, ?_, ?_, ?_⟩
      · simp [replaceFilesList, ih1, collectFilesL]
      · simp [replaceFilesList, ih2, hasFileL]
      · simp [replaceFilesList, collectIdxL, ih3, collectFilesL]
      · intro hf
        have hfr : hasFileL rest = false := by simpa [hasFileL] using hf
        simp [replaceFilesList, ih4 hfr]

/-- Claim C6: replaceFiles never mutates its input (the model is a pure
    function of the tree); with an initially-empty files array the
    returned files are the tree's Files in traversal order and the
    multipartIndex values assigned to the placeholders are exactly
    0..N-1 in traversal order, where N is the number of files appended;
    and a fresh container is allocated (changed flag) exactly when some
    descendant changed, so every subtree with no binary-file descendant
    comes back reference-identical to the input. -/
theorem replaceFiles_spec (vars : List (String × Vars)) (h : noInfoL vars = true) :
    (replaceFilesList vars []).2.1 = collectFilesL vars
    ∧ collectIdxL (replaceFilesList vars []).1
        = List.range (collectFilesL vars).length
    ∧ ((replaceFilesList vars []).2.2 = false ↔ hasFileL vars = false)
    ∧ (hasFileL vars = false → (replaceFilesList vars []).1 = vars) := by
  obtain ⟨h1, h2, h3, h4⟩ := replaceFilesList_complete vars [] h
  refine ⟨by simpa using h1, ?_, by simp [h2], h4⟩
  rw [h3]
  simp [List.range_eq_range']

/-- File identities used in the claim-C6 witness tree. -/
def fileSampleA : FileData := ⟨"a.png", "image/png", 10⟩

def fileSampleB : FileData := ⟨"b.txt", "text/plain", 2⟩

/-- The claim-C6 witness tree: a File, a nested container holding another
    File and a primitive, and a top-level primitive. -/
def varsSample : List (String × Vars) :=
  [("a", .file fileSampleA),
   ("b", .node [("c", .file fileSampleB), ("d", .prim (.num 5))]),
   ("e", .prim (.str "x"))]

/-- Claim C6 witness: the structural statement evaluated on a concrete
    tree with two files, one of them nested. -/
theorem replaceFiles_spec_witness :
    (replaceFilesList varsSample []).2.1 = [fileSampleA, fileSampleB]
    ∧ collectIdxL (replaceFilesList varsSample []).1 = [0, 1] := by
  have h := replaceFiles_spec varsSample (by simp [varsSample, noInfoL])
  refine ⟨h.1.trans ?_, h.2.1.trans ?_⟩
  · simp [varsSample, collectFilesL]
  · simp [varsSample, collectFilesL]
    decide

/-- Events used in the claim-C7 theorems. -/
def evSample1 : Event := ⟨"click", "home", "press1"⟩

def evSample2 : Event := ⟨"click", "home", "press2"⟩

def evSample3 : Event := ⟨"click", "home", "press3"⟩

def evSample4 : Event := ⟨"click", "home", "press4"⟩

def evSample5 : Event := ⟨"click", "home", "press5"⟩

/-- Claim C7 counterexample: the claim says each record cancels any flush
    already scheduled but not yet fired.  recordInteraction performs no
    cancellation: after one record at 0 ms and a second at 100 ms, both
    scheduled flushes are still pending (due at 2000 ms and 2100 ms),
    while the claimed cancellation would have left exactly one. -/
theorem recordInteraction_does_not_cancel :
    (recordInteraction (recordInteraction initWorld 0 evSample1) 100 evSample2).timers
      = [2000, 2100]
    ∧ (recordInteraction (recordInteraction initWorld 0 evSample1) 100
        evSample2).timers.length ≠ 1 := by
  decide

/-- Claim C7 (amended): for every 5 recordInteraction calls at
    nondecreasing times all within the 2000 ms flush delay of the first
    call (in particular every burst of calls within 200 ms of each
    other), running the world to quiescence issues exactly one analytics
    POST, containing all 5 events in insertion order: the earliest
    scheduled flush drains the whole queue, and the other four fire on an
    empty queue and skip their POST. -/
theorem analytics_burst_single_post (e1 e2 e3 e4 e5 : Event)
    (t1 t2 t3 t4 t5 : Nat) (h12 : t1 ≤ t2) (h23 : t2 ≤ t3) (h34 : t3 ≤ t4)
    (h45 : t4 ≤ t5) (hwin : t5 < t1 + flushDelayMs) :
    (runWorld 10 [(t1, e1), (t2, e2), (t3, e3), (t4, e4), (t5, e5)] initWorld).posts
      = [[e1, e2, e3, e4, e5]] := by
  have h2 : t2 < t1 + flushDelayMs := by omega
  have h3 : t3 < t1 + flushDelayMs := by omega
  have h4 : t4 < t1 + flushDelayMs := by omega
  have h5 : t5 < t1 + flushDelayMs := by omega
  simp [runWorld, initWorld, recordInteraction, flushCallback, h2, h3, h4, h5]

/-- Claim C7 witness: a concrete burst of 5 records within 200 ms. -/
theorem analytics_burst_single_post_witness :
    (runWorld 10 [(0, evSample1), (50, evSample2), (100, evSample3),
        (150, evSample4), (199, evSample5)] initWorld).posts
      = [[evSample1, evSample2, evSample3, evSample4, evSample5]] :=
  analytics_burst_single_post evSample1 evSample2 evSample3 evSample4 evSample5
    0 50 100 150 199 (by decide) (by decide) (by decide) (by decide) (by decide)

end SvelteKitUtils

